import Mathlib

/-!
Shallow embedding of the iot-report PDF batch pipeline
(src/pdf_processor.py, src/batch_processor.py) and verification of the
spec claims about it.

Modelling conventions:
* A persisted Excel row is a Python dict captured as an ordered list of
  key/cell pairs (Python dicts preserve insertion order, and pandas takes
  the column order from the dict's key order).
* File-system and network effects are passed in as explicit oracle values:
  opening a PDF yields either its pages or an exception message, the model
  service call yields an exception, a None, or a content string, and an
  Excel write either succeeds or raises an I/O error.
* asyncio is single-threaded and a coroutine only yields control at an
  `await` expression; `save_to_excel` (pdf_processor.py lines 93-109)
  contains no `await`, so each save coroutine's read-modify-rewrite runs
  as one uninterrupted block.  The concurrency model below makes the
  read and write micro-steps explicit and represents the asyncio
  behaviour as schedules in which each task's micro-steps are contiguous.
-/

namespace IotReport

/-- A cell of a persisted row: Python string or list-of-strings value. -/
inductive Cell where
  | str (s : String)
  | strList (l : List String)
  deriving DecidableEq, Repr

/-- A persisted row: ordered key/cell pairs, mirroring a Python dict's
insertion order (pandas derives the column order from it). -/
abbrev Row := List (String × Cell)

/-- The keys (columns) of a row, in insertion order. -/
def rowKeys (r : Row) : List String := r.map Prod.fst

/-- Outcome of `fitz.open` plus the page iteration in
`extract_text_from_pdf` (pdf_processor.py lines 16-23): either some
exception was raised, or the document yielded this list of page texts. -/
inductive PdfOpenResult where
  | failure (msg : String)
  | pages (ps : List String)
  deriving DecidableEq, Repr

/-- Whitespace in the sense of Python's `str.strip()` (ASCII subset). -/
def isPySpace (c : Char) : Bool :=
  c == ' ' || c == '\t' || c == '\n' || c == '\r' || c == '\x0b' || c == '\x0c'

/-- Python's `str.strip()`: remove leading and trailing whitespace. -/
def pyStrip (s : String) : String :=
  ⟨((s.data.dropWhile isPySpace).reverse.dropWhile isPySpace).reverse⟩

/-- Truthiness test `if text.strip():` in the source — `true` exactly when
the string is empty or all-whitespace (the stripped string is empty). -/
def pyBlank (s : String) : Bool := s.data.all isPySpace

/-- Python's `"\n".join`: empty string on an empty list, otherwise the
elements separated by single newlines. -/
def joinLines : List String → String
  | [] => ""
  | [t] => t
  | t :: u :: ts => t ++ "\n" ++ joinLines (u :: ts)

/-- `extract_text_from_pdf` (pdf_processor.py lines 14-27): on success,
keep each page whose stripped text is non-empty (the original text, not
the stripped one, is appended) and join with a newline; any exception is
caught and the empty string is returned. -/
def extract_text_from_pdf : PdfOpenResult → String
  | .failure _ => ""
  | .pages ps => joinLines (ps.filter (fun t => !pyBlank t))

/-- `record["processed_at"] = datetime.now().strftime(...)` in
`save_to_excel` (pdf_processor.py line 97): the timestamp key is added at
the end of the dict. -/
def stampRecord (now : String) (record : Row) : Row :=
  record ++ [("processed_at", Cell.str now)]

/-- The store behind `save_to_excel`: `none` when the Excel file does not
exist yet, `some rows` when it holds these rows. -/
abbrev Store := Option (List Row)

/-- `save_to_excel` (pdf_processor.py lines 93-109), success path: stamp
the record, then either read the whole existing table and concatenate the
one new row, or start a fresh one-row table; the table is rewritten
wholesale. -/
def save_to_excel (now : String) (record : Row) (store : Store) : Store :=
  let record := stampRecord now record
  match store with
  | some df => some (df ++ [record])
  | none => some [record]

/-- Number of rows in a store (an absent file has zero rows). -/
def storeLen (store : Store) : Nat := (store.getD []).length

/-- The cell stored under a key in a row, if any. -/
def cellAt (r : Row) (k : String) : Option Cell :=
  (r.find? (fun kv => kv.1 == k)).map Prod.snd

/-- How many rows of a table carry the given filename cell. -/
def countFilename (df : List Row) (v : Cell) : Nat :=
  (df.filter (fun r => cellAt r "filename" == some v)).length

/-! ### Outcome of `save_to_excel` with an explicit I/O oracle (for C9) -/

/-- Whether the pandas write raises. -/
inductive IoOutcome where
  | ok
  | ioError (msg : String)
  deriving DecidableEq, Repr

/-- What a caller of `save_to_excel` can observe. -/
structure SaveTrace where
  /-- how many times the write (`df.to_excel`) was attempted -/
  writeAttempts : Nat
  /-- whether an exception escaped to the caller -/
  raisedToCaller : Bool
  /-- the message printed by the `except` branch, if it ran -/
  loggedMessage : Option String
  /-- the resulting store -/
  store : Store
  deriving DecidableEq, Repr

/-- `save_to_excel` (pdf_processor.py lines 93-109) with the I/O outcome
explicit: the whole body sits in one `try`; on any exception the handler
prints `"Error saving to Excel: {e}"` and the coroutine returns normally —
there is no second attempt and the record is not persisted. -/
def saveToExcelOutcome (now : String) (record : Row) (io : IoOutcome)
    (store : Store) : SaveTrace :=
  match io with
  | .ok =>
      { writeAttempts := 1
        raisedToCaller := false
        loggedMessage := none
        store := save_to_excel now record store }
  | .ioError e =>
      { writeAttempts := 1
        raisedToCaller := false
        loggedMessage := some ("Error saving to Excel: " ++ e)
        store := store }

/-! ### Claim C10: totality of `extract_text_from_pdf` -/

lemma nonblank_ne_empty (p : String) (hp : ¬pyBlank p = true) : p ≠ "" := by
  intro h
  subst h
  exact hp (by decide)

lemma joinLines_cons_ne_empty (q : String) (qs : List String) (hq : q ≠ "") :
    joinLines (q :: qs) ≠ "" := by
  cases qs with
  | nil => simpa [joinLines] using hq
  | cons u us =>
      intro h
      have hlen := congrArg String.length h
      rw [joinLines, String.length_append, String.length_append] at hlen
      have h1 : ("\n" : String).length = 1 := rfl
      rw [String.length_empty, h1] at hlen
      omega

/-- Claim C10: `extract_text_from_pdf` is total at its public interface —
on any internal error it returns the empty string (the failure sentinel,
not an exception), and on success it returns the non-empty pages' text
joined by newlines; moreover the sentinel is returned exactly when there
is an error or every page is blank. -/
theorem C10_extract_text_total :
    (∀ msg, extract_text_from_pdf (.failure msg) = "") ∧
    (∀ ps, extract_text_from_pdf (.pages ps) =
      joinLines (ps.filter (fun t => !pyBlank t))) ∧
    (∀ ps, extract_text_from_pdf (.pages ps) = "" ↔
      ∀ p ∈ ps, pyBlank p = true) := by
  refine ⟨fun _ => rfl, fun _ => rfl, fun ps => ?_⟩
  constructor
  · intro h p hp
    by_contra hne
    cases hf : ps.filter (fun t => !pyBlank t) with
    | nil =>
        have hmem : p ∈ ps.filter (fun t => !pyBlank t) := by
          rw [List.mem_filter]
          exact ⟨hp, by simpa using hne⟩
        rw [hf] at hmem
        exact absurd hmem (List.not_mem_nil p)
    | cons q qs =>
        have hq : ¬pyBlank q = true := by
          have hqmem : q ∈ ps.filter (fun t => !pyBlank t) := by
            rw [hf]; exact List.mem_cons_self q qs
          simpa using (List.mem_filter.mp hqmem).2
        have : joinLines (q :: qs) ≠ "" :=
          joinLines_cons_ne_empty q qs (nonblank_ne_empty q hq)
        rw [extract_text_from_pdf, hf] at h
        exact this h
  · intro hall
    have hnil : ps.filter (fun t => !pyBlank t) = [] := by
      rw [List.filter_eq_nil_iff]
      intro a ha
      simp [hall a ha]
    simp [extract_text_from_pdf, hnil, joinLines]

/-! ### Claim C7: append-only store -/

/-- Claim C7: a successful append yields the prior rows, in their prior order
and unmodified, followed by the one stamped new row (a fresh one-row table if
the store was absent); and the number of rows carrying any given filename cell
grows by one exactly when the new row carries it — so duplicate filenames pile
up as additional rows, never deduplicated or overwritten. -/
theorem C7_append_only (now : String) (record : Row) (df : List Row) (v : Cell) :
    save_to_excel now record (some df) = some (df ++ [stampRecord now record]) ∧
    save_to_excel now record none = some [stampRecord now record] ∧
    countFilename (df ++ [stampRecord now record]) v =
      countFilename df v +
        (if cellAt (stampRecord now record) "filename" = some v then 1 else 0) := by
  refine ⟨rfl, rfl, ?_⟩
  unfold countFilename
  rw [List.filter_append, List.length_append]
  by_cases h : cellAt (stampRecord now record) "filename" = some v
  · simp [List.filter_cons, h]
  · simp [List.filter_cons, h]

/-! ### Claim C9: persistence failure handling -/

/-- Claim C9 (amended): on an I/O error, `save_to_excel` makes exactly one
write attempt (no retry), absorbs the exception (nothing reaches the caller),
logs only the generic message `"Error saving to Excel: {e}"` — which does not
mention the affected filename and does not depend on the record at all — and
leaves the store unchanged, silently losing the record. -/
theorem C9_persistence_absorbed (now e : String) (record : Row) (store : Store) :
    (saveToExcelOutcome now record (.ioError e) store).writeAttempts = 1 ∧
    (saveToExcelOutcome now record (.ioError e) store).raisedToCaller = false ∧
    (saveToExcelOutcome now record (.ioError e) store).loggedMessage =
      some ("Error saving to Excel: " ++ e) ∧
    (saveToExcelOutcome now record (.ioError e) store).store = store :=
  ⟨rfl, rfl, rfl, rfl⟩

/-- A concrete record used to exhibit the persistence-failure behaviour. -/
def lostRecord : Row := [("filename", Cell.str "a.pdf"), ("title", Cell.str "a.pdf")]

/-- Claim C9 counterexample: for a concrete failing append, the write is
attempted exactly once — not retried — the caller sees no error at all, the
logged message does not contain the affected filename `a.pdf`, and the record
silently vanishes (the store is unchanged): the failure is merely logged and
absorbed. -/
theorem C9_counterexample :
    (saveToExcelOutcome "2024-01-01 00:00:00" lostRecord (.ioError "disk full")
      (some [])).writeAttempts = 1 ∧
    ¬2 ≤ (saveToExcelOutcome "2024-01-01 00:00:00" lostRecord (.ioError "disk full")
      (some [])).writeAttempts ∧
    (saveToExcelOutcome "2024-01-01 00:00:00" lostRecord (.ioError "disk full")
      (some [])).raisedToCaller = false ∧
    (saveToExcelOutcome "2024-01-01 00:00:00" lostRecord (.ioError "disk full")
      (some [])).loggedMessage = some "Error saving to Excel: disk full" ∧
    (saveToExcelOutcome "2024-01-01 00:00:00" lostRecord (.ioError "disk full")
      (some [])).store = some [] := by
  refine ⟨rfl, by decide, rfl, ?_, rfl⟩
  decide

/-! ### Claim C3: the model-service call has no retry loop -/

/-- What one run of `extract_paper_info` can observe: how many service calls
were issued, how long it slept between them, and what it returned.  A service
oracle gives the outcome the n-th attempt would have had. -/
structure AttemptTrace where
  attempts : Nat
  backoffSeconds : Nat
  result : Option String
  deriving DecidableEq, Repr

/-- `extract_paper_info` (pdf_processor.py lines 30-90): the body makes exactly
one `models.client.chat.completions.create` call inside a single `try` block —
there is no retry loop and no sleep.  On success the response content is
returned; any exception is caught, a message is printed and `None` is
returned.  `text` and `filename` do not influence the control flow. -/
def extract_paper_info (text filename : String)
    (service : Nat → Except String String) : AttemptTrace :=
  let _ := text
  let _ := filename
  match service 0 with
  | .ok content => { attempts := 1, backoffSeconds := 0, result := some content }
  | .error _ => { attempts := 1, backoffSeconds := 0, result := none }

/-- A model service that fails on every attempt. -/
def alwaysFailService : Nat → Except String String := fun _ => .error "rate limited"

/-- Claim C3 counterexample: with a service that fails every attempt, the
extractor makes exactly 1 attempt — not up to 3 — accrues 0 seconds of
backoff — not 1 + 2 + 4 = 7 — and returns `None` with no error detail rather
than a `ServiceFailed` carrying the last underlying error. -/
theorem C3_counterexample :
    (extract_paper_info "txt" "a.pdf" alwaysFailService).attempts = 1 ∧
    (extract_paper_info "txt" "a.pdf" alwaysFailService).backoffSeconds = 0 ∧
    ¬((extract_paper_info "txt" "a.pdf" alwaysFailService).attempts = 3 ∧
      (extract_paper_info "txt" "a.pdf" alwaysFailService).backoffSeconds = 7) := by
  refine ⟨rfl, rfl, fun h => ?_⟩
  exact absurd h.1 (by decide)

/-- Claim C3 (amended): for every input text and document name,
`extract_paper_info` makes exactly one attempt at the model-service call with
no sleep or backoff; a successful call returns the content and a failing call
returns `None` (discarding the underlying error). -/
theorem C3_single_attempt (text filename : String)
    (service : Nat → Except String String) :
    (extract_paper_info text filename service).attempts = 1 ∧
    (extract_paper_info text filename service).backoffSeconds = 0 ∧
    (∀ c, service 0 = .ok c →
      (extract_paper_info text filename service).result = some c) ∧
    (∀ e, service 0 = .error e →
      (extract_paper_info text filename service).result = none) := by
  refine ⟨?_, ?_, ?_, ?_⟩ <;>
    cases h : service 0 <;> simp [extract_paper_info, h]

/-- Witness for C3 (amended) at a concrete fully-failing service. -/
theorem C3_single_attempt_witness :
    (extract_paper_info "txt" "a.pdf" alwaysFailService).result = none :=
  (C3_single_attempt "txt" "a.pdf" alwaysFailService).2.2.2 "rate limited" rfl

/-! ### Claim C4: extraction strategies and quality gate -/

/-- Claim C4 counterexample: the engine accepts and returns an extraction whose
trimmed character count is 5 — far below the claimed threshold of 100 — so no
quality gate exists; there is no second strategy to fall through to. -/
theorem C4_counterexample :
    extract_text_from_pdf (.pages ["short"]) = "short" ∧
    (pyStrip "short").length ≤ 100 := by
  constructor
  · decide
  · decide

/-- Claim C4 (amended): the extraction engine has exactly one strategy (the
PyMuPDF text layer); any non-blank page's text is returned as-is regardless of
its length — there is no quality threshold and no ordered list of fallback
strategies — and on an internal error the engine returns the empty string
rather than trying another strategy. -/
theorem C4_single_strategy_no_gate :
    (∀ s : String, ¬pyBlank s = true → extract_text_from_pdf (.pages [s]) = s) ∧
    (∀ msg, extract_text_from_pdf (.failure msg) = "") := by
  constructor
  · intro s hs
    simp only [extract_text_from_pdf, List.filter_cons, List.filter_nil]
    rw [if_pos (by simpa using hs)]
    rfl
  · intro msg
    rfl

/-- Witness for C4 (amended) at the concrete page "short". -/
theorem C4_single_strategy_no_gate_witness :
    ¬pyBlank "short" = true ∧ extract_text_from_pdf (.pages ["short"]) = "short" :=
  ⟨by decide, C4_single_strategy_no_gate.1 "short" (by decide)⟩

/-! ### The batch pipeline (src/batch_processor.py) -/

/-- The payload required by the JSON schema in `extract_paper_info`
(pdf_processor.py lines 34-60): `title, abstract, method, objectives,
categories, summary`, no additional properties. -/
structure PaperInfo where
  title : String
  abstract : String
  method : String
  objectives : String
  categories : List String
  summary : String
  deriving DecidableEq, Repr

/-- Outcome of the `extract_paper_info` gather slot for one document
(batch_processor.py lines 79-123): the task raised, returned `None`,
returned content that `json.loads` parses against the schema, or returned
content that raises `JSONDecodeError`. -/
inductive AiOutcome where
  | exn (msg : String)
  | noResponse
  | parsed (p : PaperInfo)
  | badJson (err : String)
  deriving DecidableEq, Repr

/-- Outcome of the `extract_text_from_pdf` gather slot for one document
(batch_processor.py lines 26-27 with `return_exceptions=True`): either an
exception object or the extracted string. -/
inductive TextOutcome where
  | exn (msg : String)
  | text (s : String)
  deriving DecidableEq, Repr

/-- One input document together with the outcomes its two effectful stages
would produce: the text-extraction gather slot and the model-call gather
slot (consulted only when the text is usable). -/
structure DocInput where
  name : String
  textRes : TextOutcome
  aiRes : AiOutcome
  deriving DecidableEq, Repr

/-- The validity test of batch_processor.py lines 34-44: a text result is
usable when it is not an exception and `text.strip()` is truthy. -/
def textOk : TextOutcome → Bool
  | .text s => !pyBlank s
  | .exn _ => false

/-- The placeholder record of batch_processor.py lines 62-74 for a document
whose text could not be used. -/
def noTextRecord (d : DocInput) : Row :=
  [("filename", .str d.name), ("title", .str d.name),
   ("abstract", .str (match d.textRes with
     | .exn _ => "Text extraction error"
     | .text _ => "No text extracted")),
   ("method", .str "Processing failed"),
   ("objectives", .str "Processing failed"),
   ("categories", .strList ["Error"]),
   ("summary", .str "Failed to extract text from PDF")]

/-- The placeholder record of batch_processor.py lines 84-92 / 96-104 for a
failed or empty model response. -/
def openAiFailRecord (name summary : String) : Row :=
  [("filename", .str name), ("title", .str name),
   ("abstract", .str "OpenAI processing failed"),
   ("method", .str "OpenAI processing failed"),
   ("objectives", .str "OpenAI processing failed"),
   ("categories", .strList ["Error"]),
   ("summary", .str summary)]

/-- The placeholder record of batch_processor.py lines 114-122 for an
unparsable model response. -/
def jsonFailRecord (name err : String) : Row :=
  [("filename", .str name), ("title", .str name),
   ("abstract", .str "JSON parsing failed"),
   ("method", .str "JSON parsing failed"),
   ("objectives", .str "JSON parsing failed"),
   ("categories", .strList ["Error"]),
   ("summary", .str ("JSON parsing error: " ++ err))]

/-- The parsed record of batch_processor.py lines 107-109: the JSON object's
keys in schema order, then `record["filename"] = pdf_file.name` appended. -/
def successRecord (p : PaperInfo) (name : String) : Row :=
  [("title", .str p.title), ("abstract", .str p.abstract),
   ("method", .str p.method), ("objectives", .str p.objectives),
   ("categories", .strList p.categories), ("summary", .str p.summary),
   ("filename", .str name)]

/-- The record built for a valid-text document from its model-call outcome,
together with whether it counts as successful (batch_processor.py
lines 79-123). -/
def aiRecord (name : String) : AiOutcome → Row × Bool
  | .exn m => (openAiFailRecord name ("OpenAI error: " ++ m), false)
  | .noResponse => (openAiFailRecord name "OpenAI returned no response", false)
  | .parsed p => (successRecord p name, true)
  | .badJson e => (jsonFailRecord name e, false)

/-- Result of one batch: the store after its saves and its tallies. -/
structure BatchResult where
  store : Store
  successful : Nat
  failed : Nat
  deriving DecidableEq, Repr

/-- `process_pdf_batch` (batch_processor.py lines 18-132): documents whose
text is unusable get a placeholder record and count as failed; the others are
classified by their model-call outcome; save tasks are issued first for the
unusable documents in input order, then for the valid ones in input order, and
executed by the single-threaded event loop (see the concurrency model below),
so the saves fold over the store in that order. -/
def process_pdf_batch (now : String) (docs : List DocInput) (store : Store) :
    BatchResult :=
  let invalid := docs.filter (fun d => !textOk d.textRes)
  let valid := docs.filter (fun d => textOk d.textRes)
  let failRows := invalid.map noTextRecord
  let aiResults := valid.map (fun d => aiRecord d.name d.aiRes)
  let allRows := failRows ++ aiResults.map Prod.fst
  { store := allRows.foldl (fun st r => save_to_excel now r st) store
    successful := (aiResults.filter (fun x => x.2)).length
    failed := invalid.length + (aiResults.filter (fun x => !x.2)).length }

/-- Helper for `chunks`: structural recursion on a fuel bound (the fuel is
always at least the list length, so the middle branch never fires). -/
def chunksAux {α : Type} (k : Nat) : Nat → List α → List (List α)
  | _, [] => []
  | 0, _ :: _ => []
  | fuel + 1, x :: xs => (x :: xs).take k :: chunksAux k fuel (xs.drop (k - 1))

/-- The batch slicing `pdf_files[i : i + batch_size]` of the loop
`for i in range(0, len(pdf_files), batch_size)` (batch_processor.py
lines 163-164), as a recursion on the remaining suffix; meaningful for
`0 < k` (Python's `range` raises on step 0). -/
def chunks {α : Type} (k : Nat) (l : List α) : List (List α) :=
  chunksAux k l.length l

/-- How `batch_process_papers` terminates. -/
inductive RunResult where
  | earlyNoDir (msg : String)
  | earlyNoFiles (msg : String)
  | done (successful failed : Nat)
  deriving DecidableEq, Repr

/-- Result of the batch loop: final store, tallies, and the inter-batch
sleeps that occurred, in order (each entry is a sleep in seconds). -/
structure ChunksResult where
  store : Store
  successful : Nat
  failed : Nat
  sleeps : List Nat
  deriving DecidableEq, Repr

/-- The loop body of batch_processor.py lines 163-180: process each batch in
order, accumulate tallies, and sleep 2 seconds after a batch exactly when
`i + batch_size < len(pdf_files)`, i.e. when further batches remain. -/
def runChunks (now : String) : List (List DocInput) → Store → ChunksResult
  | [], store => { store := store, successful := 0, failed := 0, sleeps := [] }
  | b :: bs, store =>
    let r1 := process_pdf_batch now b store
    let r2 := runChunks now bs r1.store
    { store := r2.store
      successful := r1.successful + r2.successful
      failed := r1.failed + r2.failed
      sleeps := (if bs.isEmpty then [] else [2]) ++ r2.sleeps }

/-- What `batch_process_papers` returns and leaves behind. -/
structure RunOutput where
  result : RunResult
  store : Store
  sleeps : List Nat
  deriving DecidableEq, Repr

/-- `batch_process_papers` (batch_processor.py lines 135-201): a missing
directory or an empty document list prints a diagnostic and returns early
(plain `return`, no exception, nothing written); otherwise the batches run
and the totals are returned. -/
def batch_process_papers (dirExists : Bool) (papersDir : String)
    (docs : List DocInput) (batch_size : Nat) (now : String) (store : Store) :
    RunOutput :=
  if !dirExists then
    { result := .earlyNoDir ("❌ Papers directory '" ++ papersDir ++ "' not found!")
      store := store, sleeps := [] }
  else if docs.isEmpty then
    { result := .earlyNoFiles ("❌ No PDF files found in '" ++ papersDir ++ "'")
      store := store, sleeps := [] }
  else
    let r := runChunks now (chunks batch_size docs) store
    { result := .done r.successful r.failed, store := r.store, sleeps := r.sleeps }

/-! ### Helper lemmas about the store and the batch loop -/

/-- The rows of a store (an absent file has none). -/
def storeRows (st : Store) : List Row := st.getD []

lemma storeRows_save (now : String) (r : Row) (st : Store) :
    storeRows (save_to_excel now r st) = storeRows st ++ [stampRecord now r] := by
  cases st <;> simp [save_to_excel, storeRows]

lemma storeRows_foldl (now : String) (rows : List Row) :
    ∀ st : Store, storeRows (rows.foldl (fun st r => save_to_excel now r st) st) =
      storeRows st ++ rows.map (stampRecord now) := by
  induction rows with
  | nil => intro st; simp
  | cons r rs ih =>
      intro st
      simp only [List.foldl_cons, List.map_cons]
      rw [ih, storeRows_save, List.append_assoc]
      rfl

lemma storeLen_eq_rows (st : Store) : storeLen st = (storeRows st).length := rfl

lemma process_pdf_batch_spec (now : String) (docs : List DocInput) (store : Store) :
    (process_pdf_batch now docs store).successful
        + (process_pdf_batch now docs store).failed = docs.length ∧
    storeRows (process_pdf_batch now docs store).store =
      storeRows store ++
        ((docs.filter (fun d => !textOk d.textRes)).map
            (fun d => stampRecord now (noTextRecord d)) ++
         (docs.filter (fun d => textOk d.textRes)).map
            (fun d => stampRecord now (aiRecord d.name d.aiRes).1)) := by
  constructor
  · have h1 := (List.filter_append_perm (fun x : Row × Bool => x.2)
      ((docs.filter (fun d => textOk d.textRes)).map
        (fun d => aiRecord d.name d.aiRes))).length_eq
    have h2 := (List.filter_append_perm (fun d : DocInput => textOk d.textRes) docs).length_eq
    simp only [List.length_append, List.length_map] at h1 h2
    simp only [process_pdf_batch]
    omega
  · simp only [process_pdf_batch]
    rw [storeRows_foldl]
    simp only [List.map_append, List.map_map]
    rfl

lemma cellAt_stamp_noText (now : String) (d : DocInput) :
    cellAt (stampRecord now (noTextRecord d)) "filename" = some (.str d.name) := rfl

lemma cellAt_stamp_ai (now : String) (d : DocInput) :
    cellAt (stampRecord now (aiRecord d.name d.aiRes).1) "filename" =
      some (.str d.name) := by
  cases d.aiRes <;> rfl

lemma countFilename_append (df₁ df₂ : List Row) (v : Cell) :
    countFilename (df₁ ++ df₂) v = countFilename df₁ v + countFilename df₂ v := by
  simp [countFilename, List.filter_append]

lemma countFilename_eq_countP (df : List Row) (v : Cell) :
    countFilename df v = df.countP (fun r => cellAt r "filename" == some v) := by
  simp [countFilename, List.countP_eq_length_filter]

lemma count_new_rows (now : String) (docs : List DocInput) (v : Cell) :
    countFilename
      ((docs.filter (fun d => !textOk d.textRes)).map
          (fun d => stampRecord now (noTextRecord d)) ++
       (docs.filter (fun d => textOk d.textRes)).map
          (fun d => stampRecord now (aiRecord d.name d.aiRes).1)) v
      = docs.countP (fun d => Cell.str d.name == v) := by
  rw [countFilename_append, countFilename_eq_countP, countFilename_eq_countP,
    List.countP_map, List.countP_map]
  have hinv : ((docs.filter (fun d => !textOk d.textRes)).countP
      ((fun r => cellAt r "filename" == some v) ∘ fun d => stampRecord now (noTextRecord d)))
      = (docs.filter (fun d => !textOk d.textRes)).countP (fun d => Cell.str d.name == v) := by
    apply List.countP_congr
    intro d _
    simp [Function.comp, cellAt_stamp_noText]
  have hval : ((docs.filter (fun d => textOk d.textRes)).countP
      ((fun r => cellAt r "filename" == some v) ∘
        fun d => stampRecord now (aiRecord d.name d.aiRes).1))
      = (docs.filter (fun d => textOk d.textRes)).countP (fun d => Cell.str d.name == v) := by
    apply List.countP_congr
    intro d _
    simp [Function.comp, cellAt_stamp_ai]
  rw [hinv, hval]
  have hperm := (List.filter_append_perm (fun d : DocInput => textOk d.textRes) docs).countP_eq
    (fun d => Cell.str d.name == v)
  rw [List.countP_append] at hperm
  omega

lemma runChunks_spec (now : String) (cs : List (List DocInput)) : ∀ store : Store,
    (runChunks now cs store).successful + (runChunks now cs store).failed
        = cs.flatten.length ∧
    (storeRows (runChunks now cs store).store).length
        = (storeRows store).length + cs.flatten.length ∧
    (∀ v, countFilename (storeRows (runChunks now cs store).store) v =
      countFilename (storeRows store) v
        + cs.flatten.countP (fun d => Cell.str d.name == v)) ∧
    (runChunks now cs store).sleeps = List.replicate (cs.length - 1) 2 := by
  induction cs with
  | nil => intro store; simp [runChunks]
  | cons b bs ih =>
      intro store
      obtain ⟨ihc, ihl, ihcount, ihsl⟩ := ih (process_pdf_batch now b store).store
      obtain ⟨hc, hrows⟩ := process_pdf_batch_spec now b store
      have hblen : (storeRows (process_pdf_batch now b store).store).length
          = (storeRows store).length + b.length := by
        rw [hrows]
        have h2 := (List.filter_append_perm (fun d : DocInput => textOk d.textRes) b).length_eq
        simp only [List.length_append, List.length_map] at h2 ⊢
        omega
      have hbcount : ∀ v, countFilename (storeRows (process_pdf_batch now b store).store) v
          = countFilename (storeRows store) v + b.countP (fun d => Cell.str d.name == v) := by
        intro v
        rw [hrows, countFilename_append, count_new_rows]
      refine ⟨?_, ?_, ?_, ?_⟩
      · simp only [runChunks, List.flatten_cons, List.length_append]
        omega
      · simp only [runChunks, List.flatten_cons, List.length_append]
        omega
      · intro v
        simp only [runChunks, List.flatten_cons, List.countP_append]
        rw [ihcount v, hbcount v]
        omega
      · simp only [runChunks, ihsl]
        cases bs with
        | nil => simp
        | cons b2 bs2 =>
            simp only [List.isEmpty_cons, if_neg]
            have : (b2 :: bs2).length - 1 + 1 = (b2 :: bs2).length := by
              simp
            rw [List.length_cons, List.length_cons]
            simp [List.replicate_succ]

lemma chunksAux_nil_iff {α : Type} (k n : Nat) (l : List α) (hl : l.length ≤ n) :
    chunksAux k n l = [] ↔ l = [] := by
  cases l with
  | nil => simp [chunksAux]
  | cons x xs =>
      cases n with
      | zero => simp at hl
      | succ m => simp [chunksAux]

lemma chunksAux_flatten {α : Type} (k : Nat) (hk : 0 < k) :
    ∀ (n : Nat) (l : List α), l.length ≤ n → (chunksAux k n l).flatten = l := by
  intro n
  induction n with
  | zero =>
      intro l hl
      have : l = [] := List.eq_nil_of_length_eq_zero (by omega)
      subst this
      simp [chunksAux]
  | succ m ih =>
      intro l hl
      cases l with
      | nil => simp [chunksAux]
      | cons x xs =>
          simp only [chunksAux, List.flatten_cons]
          rw [ih (xs.drop (k - 1)) (by simp only [List.length_drop]
                                       simp only [List.length_cons] at hl
                                       omega)]
          obtain ⟨k0, rfl⟩ : ∃ k0, k = k0 + 1 := ⟨k - 1, by omega⟩
          simp only [List.take_succ_cons, Nat.add_sub_cancel, List.cons_append,
            List.take_append_drop]

lemma chunks_flatten {α : Type} (k : Nat) (hk : 0 < k) (l : List α) :
    (chunks k l).flatten = l :=
  chunksAux_flatten k hk l.length l le_rfl

lemma chunksAux_mem {α : Type} (k : Nat) (hk : 0 < k) :
    ∀ (n : Nat) (l : List α), l.length ≤ n →
      ∀ c ∈ chunksAux k n l, c ≠ [] ∧ c.length ≤ k := by
  intro n
  induction n with
  | zero =>
      intro l hl
      have : l = [] := List.eq_nil_of_length_eq_zero (by omega)
      subst this
      simp [chunksAux]
  | succ m ih =>
      intro l hl c hc
      cases l with
      | nil => simp [chunksAux] at hc
      | cons x xs =>
          simp only [chunksAux] at hc
          rcases List.mem_cons.mp hc with h | h
          · subst h
            constructor
            · rw [Ne, List.take_eq_nil_iff]
              push_neg
              exact ⟨by omega, by simp⟩
            · simp [List.length_take]
          · exact ih (xs.drop (k - 1))
              (by simp only [List.length_drop]
                  simp only [List.length_cons] at hl
                  omega) c h

lemma chunks_mem {α : Type} (k : Nat) (hk : 0 < k) (l : List α) :
    ∀ c ∈ chunks k l, c ≠ [] ∧ c.length ≤ k :=
  chunksAux_mem k hk l.length l le_rfl

lemma chunksAux_dropLast {α : Type} (k : Nat) (hk : 0 < k) :
    ∀ (n : Nat) (l : List α), l.length ≤ n →
      ∀ c ∈ (chunksAux k n l).dropLast, c.length = k := by
  intro n
  induction n with
  | zero =>
      intro l hl
      have : l = [] := List.eq_nil_of_length_eq_zero (by omega)
      subst this
      simp [chunksAux]
  | succ m ih =>
      intro l hl c hc
      cases l with
      | nil => simp [chunksAux] at hc
      | cons x xs =>
          have hdroplen : (xs.drop (k - 1)).length ≤ m := by
            simp only [List.length_drop]
            simp only [List.length_cons] at hl
            omega
          simp only [chunksAux] at hc
          cases hrest : chunksAux k m (xs.drop (k - 1)) with
          | nil => rw [hrest] at hc; simp at hc
          | cons r rs =>
              rw [hrest, List.dropLast_cons₂] at hc
              rcases List.mem_cons.mp hc with h | h
              · subst h
                have hxs : xs.drop (k - 1) ≠ [] := by
                  intro hnil
                  rw [(chunksAux_nil_iff k m _ hdroplen).mpr hnil] at hrest
                  exact List.cons_ne_nil r rs hrest.symm
                have hlen : k ≤ xs.length := by
                  have := List.length_pos.mpr hxs
                  simp only [List.length_drop] at this
                  omega
                simp only [List.length_take, List.length_cons]
                omega
              · have := ih (xs.drop (k - 1)) hdroplen c
                rw [hrest] at this
                exact this h

lemma chunks_dropLast {α : Type} (k : Nat) (hk : 0 < k) (l : List α) :
    ∀ c ∈ (chunks k l).dropLast, c.length = k :=
  chunksAux_dropLast k hk l.length l le_rfl

/-! ### Claim C1: completeness of a full run -/

/-- Claim C1: for every non-empty document set, a full run of the batch
orchestrator returns totals with `successful + failed = docs.length`, appends
exactly `docs.length` rows to the store, and appends exactly one row carrying
each document's filename (counted per filename value). -/
theorem C1_completeness (papersDir now : String) (docs : List DocInput)
    (k : Nat) (store : Store) (hk : 0 < k) (hne : docs ≠ []) :
    ∃ s f, (batch_process_papers true papersDir docs k now store).result = .done s f ∧
      s + f = docs.length ∧
      storeLen (batch_process_papers true papersDir docs k now store).store =
        storeLen store + docs.length ∧
      ∀ v, countFilename
          (storeRows (batch_process_papers true papersDir docs k now store).store) v =
        countFilename (storeRows store) v +
          docs.countP (fun d => Cell.str d.name == v) := by
  obtain ⟨hc, hl, hcount, _⟩ := runChunks_spec now (chunks k docs) store
  rw [chunks_flatten k hk docs] at hc hl hcount
  have hemp : docs.isEmpty = false := by
    cases docs with
    | nil => exact absurd rfl hne
    | cons d ds => rfl
  refine ⟨(runChunks now (chunks k docs) store).successful,
          (runChunks now (chunks k docs) store).failed, ?_, hc, ?_, ?_⟩
  · simp [batch_process_papers, hemp]
  · simp only [batch_process_papers, Bool.not_true, Bool.false_eq_true, if_false, hemp]
    simpa [storeLen_eq_rows] using hl
  · intro v
    simp only [batch_process_papers, Bool.not_true, Bool.false_eq_true, if_false, hemp]
    simpa using hcount v

/-- A document whose text extraction yields nothing usable. -/
def sampleNoTextDoc : DocInput :=
  { name := "a.pdf", textRes := .text "", aiRes := .noResponse }

/-- Witness for C1 at a concrete two-document run. -/
theorem C1_completeness_witness :
    0 < 10 ∧ ([sampleNoTextDoc, sampleNoTextDoc] : List DocInput) ≠ [] ∧
    ∃ s f, (batch_process_papers true "papers" [sampleNoTextDoc, sampleNoTextDoc]
        10 "2024-01-01 00:00:00" none).result = .done s f ∧
      s + f = 2 ∧
      storeLen (batch_process_papers true "papers" [sampleNoTextDoc, sampleNoTextDoc]
        10 "2024-01-01 00:00:00" none).store = storeLen none + 2 ∧
      ∀ v, countFilename
          (storeRows (batch_process_papers true "papers" [sampleNoTextDoc, sampleNoTextDoc]
            10 "2024-01-01 00:00:00" none).store) v =
        countFilename (storeRows none) v +
          ([sampleNoTextDoc, sampleNoTextDoc] : List DocInput).countP
            (fun d => Cell.str d.name == v) :=
  ⟨by decide, by simp,
    C1_completeness "papers" "2024-01-01 00:00:00" [sampleNoTextDoc, sampleNoTextDoc]
      10 none (by decide) (by simp)⟩

/-! ### Claim C6: batch partitioning and inter-batch delays -/

/-- Claim C6: the orchestrator partitions the document list into consecutive
batches of size `k` — their concatenation is the input, every batch but the
last has exactly `k` documents and every batch (the last included) is
non-empty with at most `k` — and sleeps 2 seconds between consecutive batches
and not after the last one (one sleep per batch boundary). -/
theorem C6_batch_partitioning (papersDir now : String) (docs : List DocInput)
    (k : Nat) (store : Store) (hk : 0 < k) (hne : docs ≠ []) :
    (chunks k docs).flatten = docs ∧
    (∀ c ∈ (chunks k docs).dropLast, c.length = k) ∧
    (∀ c ∈ chunks k docs, c ≠ [] ∧ c.length ≤ k) ∧
    (batch_process_papers true papersDir docs k now store).sleeps =
      List.replicate ((chunks k docs).length - 1) 2 := by
  refine ⟨chunks_flatten k hk docs, chunks_dropLast k hk docs,
    chunks_mem k hk docs, ?_⟩
  have hemp : docs.isEmpty = false := by
    cases docs with
    | nil => exact absurd rfl hne
    | cons d ds => rfl
  obtain ⟨_, _, _, hsl⟩ := runChunks_spec now (chunks k docs) store
  simp only [batch_process_papers, Bool.not_true, Bool.false_eq_true, if_false, hemp]
  simpa using hsl

/-- Twelve documents, to instantiate the 12-documents/batch-size-10 scenario. -/
def docs12 : List DocInput := List.replicate 12 sampleNoTextDoc

/-- Witness for C6: for 12 documents and batch size 10, exactly 2 batches of
sizes 10 and 2 are formed and exactly one 2-second inter-batch sleep occurs. -/
theorem C6_batch_partitioning_witness :
    0 < 10 ∧ docs12 ≠ [] ∧
    (chunks 10 docs12).map List.length = [10, 2] ∧
    (chunks 10 docs12).flatten = docs12 ∧
    (batch_process_papers true "papers" docs12 10 "2024-01-01 00:00:00" none).sleeps =
      List.replicate 1 2 :=
  ⟨by decide, by simp [docs12], by decide,
    (C6_batch_partitioning "papers" "2024-01-01 00:00:00" docs12 10 none
      (by decide) (by simp [docs12])).1,
    by rw [(C6_batch_partitioning "papers" "2024-01-01 00:00:00" docs12 10 none
        (by decide) (by simp [docs12])).2.2.2]
       decide⟩

/-! ### Claim C8: early return on missing directory or empty document set -/

/-- Claim C8: a missing source directory or an empty document set makes the
run return early with a diagnostic message — no exception, and the store is
left untouched (no partial state) — while a non-empty set under an existing
directory always runs to completion with totals (per-document failures never
terminate the run). -/
theorem C8_early_return (papersDir now : String) (docs : List DocInput)
    (k : Nat) (store : Store) :
    ((batch_process_papers false papersDir docs k now store).result =
        .earlyNoDir ("❌ Papers directory '" ++ papersDir ++ "' not found!") ∧
      (batch_process_papers false papersDir docs k now store).store = store) ∧
    ((batch_process_papers true papersDir [] k now store).result =
        .earlyNoFiles ("❌ No PDF files found in '" ++ papersDir ++ "'") ∧
      (batch_process_papers true papersDir [] k now store).store = store) ∧
    (docs ≠ [] →
      ∃ s f, (batch_process_papers true papersDir docs k now store).result =
        .done s f) := by
  refine ⟨⟨rfl, rfl⟩, ⟨rfl, rfl⟩, fun hne => ?_⟩
  have hemp : docs.isEmpty = false := by
    cases docs with
    | nil => exact absurd rfl hne
    | cons d ds => rfl
  exact ⟨(runChunks now (chunks k docs) store).successful,
         (runChunks now (chunks k docs) store).failed,
         by simp [batch_process_papers, hemp]⟩

/-- Witness for C8 at a concrete non-empty document list. -/
theorem C8_early_return_witness :
    ([sampleNoTextDoc] : List DocInput) ≠ [] ∧
    ∃ s f, (batch_process_papers true "papers" [sampleNoTextDoc] 10
      "2024-01-01 00:00:00" none).result = .done s f :=
  ⟨by simp,
    (C8_early_return "papers" "2024-01-01 00:00:00" [sampleNoTextDoc] 10 none).2.2
      (by simp)⟩

/-! ### Claim C5: persisted columns and the status field -/

/-- Claim C5 counterexample: a concrete persisted record — the placeholder for
a document with no usable text, appended to an absent store — has the columns
`filename, title, abstract, method, objectives, categories, summary,
processed_at` and carries no `status` field at all. -/
theorem C5_counterexample :
    save_to_excel "2024-01-01 00:00:00" (noTextRecord sampleNoTextDoc) none =
      some [stampRecord "2024-01-01 00:00:00" (noTextRecord sampleNoTextDoc)] ∧
    rowKeys (stampRecord "2024-01-01 00:00:00" (noTextRecord sampleNoTextDoc)) =
      ["filename", "title", "abstract", "method", "objectives", "categories",
       "summary", "processed_at"] ∧
    "status" ∉ rowKeys (stampRecord "2024-01-01 00:00:00"
      (noTextRecord sampleNoTextDoc)) := by
  refine ⟨rfl, by decide, by decide⟩

/-- Claim C5 (amended): persisted rows have no `status` column; every record —
placeholder or parsed — is persisted with exactly the columns `filename,
title, abstract, method, objectives, categories, summary, processed_at`
(with `filename` added last for successfully parsed records), and success is
distinguishable only by the placeholder payload text, not by a status enum. -/
theorem C5_no_status_column (now name err : String) (d : DocInput) (p : PaperInfo) :
    rowKeys (stampRecord now (noTextRecord d)) =
      ["filename", "title", "abstract", "method", "objectives", "categories",
       "summary", "processed_at"] ∧
    rowKeys (stampRecord now (aiRecord name (.exn err)).1) =
      ["filename", "title", "abstract", "method", "objectives", "categories",
       "summary", "processed_at"] ∧
    rowKeys (stampRecord now (aiRecord name .noResponse).1) =
      ["filename", "title", "abstract", "method", "objectives", "categories",
       "summary", "processed_at"] ∧
    rowKeys (stampRecord now (aiRecord name (.badJson err)).1) =
      ["filename", "title", "abstract", "method", "objectives", "categories",
       "summary", "processed_at"] ∧
    rowKeys (stampRecord now (aiRecord name (.parsed p)).1) =
      ["title", "abstract", "method", "objectives", "categories", "summary",
       "filename", "processed_at"] ∧
    "status" ∉ rowKeys (stampRecord now (noTextRecord d)) ∧
    "status" ∉ rowKeys (stampRecord now (aiRecord name (.parsed p)).1) := by
  refine ⟨rfl, rfl, rfl, rfl, rfl, ?_, ?_⟩ <;> · intro h; simp [rowKeys, stampRecord,
    noTextRecord, aiRecord, successRecord] at h

/-! ### Claim C2: serialized appends

`process_pdf_batch` persists its records with `asyncio.gather(*save_tasks)`
(batch_processor.py lines 127-129).  asyncio runs every task on one thread
and a coroutine can lose control only at an `await` expression;
`save_to_excel` (pdf_processor.py lines 93-109) contains no `await`, so the
read of the whole table and the rewrite that appends one row always execute
back-to-back, uninterrupted by any other task.  The model below makes the
read-modify-rewrite micro-steps explicit: an execution the asyncio event
loop can actually produce is a *serialized* schedule — some order of the
tasks, each one contributing its load immediately followed by its flush. -/

/-- Micro-operations of one `save_to_excel` task: `load` reads the whole
table into the task's local dataframe (`pd.read_excel`), `flush` rewrites the
table wholesale as that snapshot plus the task's one row (`df.to_excel`). -/
inductive MicroOp where
  | load
  | flush
  deriving DecidableEq, Repr

/-- The shared table plus each task's private snapshot (none before its
load). -/
structure ConcState (n : Nat) where
  table : List Row
  snap : Fin n → Option (List Row)

/-- One micro-step of task `i` over the shared state. -/
def microStep {n : Nat} (rows : Fin n → Row) (st : ConcState n) (i : Fin n) :
    MicroOp → ConcState n
  | .load => { st with snap := Function.update st.snap i (some st.table) }
  | .flush => { st with table := (st.snap i).getD [] ++ [rows i] }

/-- Run a schedule: a sequence of (task, micro-op) pairs. -/
def runSched {n : Nat} (rows : Fin n → Row) :
    List (Fin n × MicroOp) → ConcState n → ConcState n
  | [], st => st
  | (i, op) :: rest, st => runSched rows rest (microStep rows st i op)

/-- The only schedules the single-threaded event loop can produce for
await-free save coroutines: each task's load immediately followed by its
flush, tasks in some order. -/
def serializedSched {n : Nat} (order : List (Fin n)) : List (Fin n × MicroOp) :=
  (order.map (fun i => [(i, MicroOp.load), (i, MicroOp.flush)])).flatten

lemma runSched_serialized {n : Nat} (rows : Fin n → Row) :
    ∀ (order : List (Fin n)) (st : ConcState n),
      (runSched rows (serializedSched order) st).table =
        st.table ++ order.map rows := by
  intro order
  induction order with
  | nil => intro st; simp [serializedSched, runSched]
  | cons i rest ih =>
      intro st
      have hstep : runSched rows (serializedSched (i :: rest)) st =
          runSched rows (serializedSched rest)
            (microStep rows (microStep rows st i .load) i .flush) := by
        simp [serializedSched, runSched]
      rw [hstep, ih]
      simp [microStep, Function.update_same, List.append_assoc]

/-- Running the serialized schedule in task order is exactly the sequential
fold of `save_to_excel` that the batch model uses: the concurrency model and
the store model agree. -/
lemma runSched_eq_foldl (now : String) (recs : List Row) (init : Store) :
    (runSched (fun i : Fin recs.length => stampRecord now (recs.get i))
        (serializedSched (List.finRange recs.length))
        ⟨storeRows init, fun _ => none⟩).table =
      storeRows (recs.foldl (fun st r => save_to_excel now r st) init) := by
  rw [runSched_serialized, storeRows_foldl]
  congr 1
  have : (fun i : Fin recs.length => stampRecord now (recs.get i)) =
      (stampRecord now) ∘ recs.get := rfl
  rw [this, ← List.map_map (stampRecord now) recs.get, List.finRange_map_get]

/-- Claim C2: all appends within a batch are serialized — for any order in
which the event loop runs the (await-free) save tasks, each task's
read-modify-rewrite runs as one uninterrupted block, so the final table is
the initial one plus every task's row in execution order: no append's row is
lost by a concurrent writer clobbering it, regardless of how many producer
tasks exist. -/
theorem C2_serialized_appends {n : Nat} (rows : Fin n → Row) (init : List Row)
    (order : List (Fin n)) (hcover : ∀ i : Fin n, i ∈ order) :
    (runSched rows (serializedSched order) ⟨init, fun _ => none⟩).table =
      init ++ order.map rows ∧
    (∀ i : Fin n, rows i ∈
      (runSched rows (serializedSched order) ⟨init, fun _ => none⟩).table) ∧
    (runSched rows (serializedSched order) ⟨init, fun _ => none⟩).table.length =
      init.length + order.length := by
  have h := runSched_serialized rows order ⟨init, fun _ => none⟩
  refine ⟨h, fun i => ?_, by simp [h]⟩
  rw [h]
  exact List.mem_append_right _ (List.mem_map_of_mem rows (hcover i))

/-- Two concrete rows, task 0's and task 1's. -/
def twoRows : Fin 2 → Row := fun i =>
  if i.val = 0 then [("filename", Cell.str "a.pdf")]
  else [("filename", Cell.str "b.pdf")]

/-- Witness for C2 with two producer tasks run in order [1, 0]: both rows
reach the table and nothing is clobbered. -/
theorem C2_serialized_appends_witness :
    (∀ i : Fin 2, i ∈ ([1, 0] : List (Fin 2))) ∧
    (∀ i : Fin 2, twoRows i ∈
      (runSched twoRows (serializedSched [1, 0]) ⟨[], fun _ => none⟩).table) ∧
    (runSched twoRows (serializedSched [1, 0]) ⟨[], fun _ => none⟩).table.length
      = 0 + 2 :=
  ⟨by decide,
    (C2_serialized_appends twoRows [] [1, 0] (by decide)).2.1,
    by simpa using (C2_serialized_appends twoRows [] [1, 0] (by decide)).2.2⟩

/-! ### Concrete instantiations of the remaining universally quantified
theorems -/

/-- Witness for C10 at a concrete failing input. -/
theorem C10_extract_text_total_witness :
    extract_text_from_pdf (.failure "not a PDF") = "" :=
  C10_extract_text_total.1 "not a PDF"

/-- Witness for C7 at a concrete store and record. -/
theorem C7_append_only_witness :
    save_to_excel "2024-01-01 00:00:00" lostRecord
        (some [stampRecord "2024-01-01 00:00:00" lostRecord]) =
      some [stampRecord "2024-01-01 00:00:00" lostRecord,
            stampRecord "2024-01-01 00:00:00" lostRecord] ∧
    countFilename
        ([stampRecord "2024-01-01 00:00:00" lostRecord] ++
          [stampRecord "2024-01-01 00:00:00" lostRecord])
        (Cell.str "a.pdf") =
      countFilename [stampRecord "2024-01-01 00:00:00" lostRecord]
          (Cell.str "a.pdf") +
        (if cellAt (stampRecord "2024-01-01 00:00:00" lostRecord) "filename" =
            some (Cell.str "a.pdf") then 1 else 0) :=
  ⟨(C7_append_only "2024-01-01 00:00:00" lostRecord
      [stampRecord "2024-01-01 00:00:00" lostRecord] (Cell.str "a.pdf")).1,
   (C7_append_only "2024-01-01 00:00:00" lostRecord
      [stampRecord "2024-01-01 00:00:00" lostRecord] (Cell.str "a.pdf")).2.2⟩

/-- Witness for C9 (amended) at a concrete failing append. -/
theorem C9_persistence_absorbed_witness :
    (saveToExcelOutcome "2024-01-01 00:00:00" lostRecord (.ioError "EBUSY")
      none).writeAttempts = 1 ∧
    (saveToExcelOutcome "2024-01-01 00:00:00" lostRecord (.ioError "EBUSY")
      none).store = none :=
  ⟨(C9_persistence_absorbed "2024-01-01 00:00:00" "EBUSY" lostRecord none).1,
   (C9_persistence_absorbed "2024-01-01 00:00:00" "EBUSY" lostRecord none).2.2.2⟩

/-- A concrete parsed payload. -/
def samplePaper : PaperInfo :=
  { title := "T", abstract := "A", method := "M", objectives := "O"
    categories := ["c1", "c2"], summary := "S" }

/-- Witness for C5 (amended) at a concrete parsed record. -/
theorem C5_no_status_column_witness :
    rowKeys (stampRecord "2024-01-01 00:00:00"
        (aiRecord "a.pdf" (.parsed samplePaper)).1) =
      ["title", "abstract", "method", "objectives", "categories", "summary",
       "filename", "processed_at"] ∧
    "status" ∉ rowKeys (stampRecord "2024-01-01 00:00:00"
        (aiRecord "a.pdf" (.parsed samplePaper)).1) :=
  ⟨(C5_no_status_column "2024-01-01 00:00:00" "a.pdf" "e" sampleNoTextDoc
      samplePaper).2.2.2.2.1,
   (C5_no_status_column "2024-01-01 00:00:00" "a.pdf" "e" sampleNoTextDoc
      samplePaper).2.2.2.2.2.2⟩

end IotReport
